import Mathlib

/-!
Verification of `lfrlock` (src/src/lib.rs): a single-slot concurrent value container
whose reads never block and whose writes are serialized behind a mutex.

The facade (`LfrLock`, `WriteGuard`, `lock_impl::Mutex`) is embedded directly from
src/src/lib.rs. The underlying versioned slot (`SmrSwap` from the external `smr_swap`
crate) is not part of this repository's sources, so it is modelled from the spec
(spec.md §4.2): `store` atomically publishes a new version; `swap` clones the outgoing
value before storing; `update` reads the current value and stores the closure's result.
We record the full publish history so that "observes v or a later stored value" is
expressible. Reads (`LocalReader::load`) access the live slot without touching the
mutex. Sequential state passing stands in for the shared mutable state behind
`Arc<Mutex<...>>`; clones of the facade share that state.
-/

namespace LfrSpec

/-- Modelled from the spec: `SmrSwap<T>`, the versioned swap slot of the external
`smr_swap` crate (spec.md §4.2). `init` is the initial value; `writes` is the list of
published versions, most recent first. The live value is the most recent publish. -/
structure SmrSwap (T : Type) where
  init : T
  writes : List T

/-- Modelled from the spec: `SmrSwap::new(initial)` — the slot starts with the initial
value live and nothing retired. -/
def SmrSwap.new {T : Type} (initial : T) : SmrSwap T :=
  ⟨initial, []⟩

/-- Modelled from the spec: the currently-live value of the slot (the most recent
publish, or the initial value if nothing was ever stored). -/
def SmrSwap.current {T : Type} (s : SmrSwap T) : T :=
  s.writes.headD s.init

/-- Modelled from the spec: `SmrSwap::store(new_value)` atomically publishes the new
version and retires the previous one (spec.md §4.2). -/
def SmrSwap.store {T : Type} (s : SmrSwap T) (new_value : T) : SmrSwap T :=
  ⟨s.init, new_value :: s.writes⟩

/-- Modelled from the spec: `SmrSwap::swap(new_value)` — same as store but clones the
outgoing value synchronously and returns it (spec.md §4.2). -/
def SmrSwap.swap {T : Type} (s : SmrSwap T) (new_value : T) : T × SmrSwap T :=
  (s.current, s.store new_value)

/-- Modelled from the spec: `SmrSwap::update(closure)` reads the current value under a
transient pin, applies the closure, then stores the result (spec.md §4.2). -/
def SmrSwap.update {T : Type} (s : SmrSwap T) (f : T → T) : SmrSwap T :=
  s.store (f s.current)

/-- `lock_impl::Mutex` (src/src/lib.rs:372-398, std feature): a wrapper around
`std::sync::Mutex` that never stays poisoned — `lock` recovers a poisoned mutex via
`into_inner` (line 386) and `try_lock` maps `Poisoned` to `Ok` (line 394), failing
only on `WouldBlock`. `held` models whether the mutex is currently locked; `poisoned`
models the underlying std poison flag, set when a guard is dropped during unwinding. -/
structure Mutex (T : Type) where
  inner : T
  held : Bool
  poisoned : Bool

/-- `LfrLock<T>` (src/src/lib.rs:26-29): the facade. `swapMutex` is the shared
`Arc<Mutex<SmrSwap<T>>>` contents; the `local : LocalReader<T>` field reads the same
slot without locking, so it carries no extra state here. `Clone for LfrLock`
(lib.rs:252-260) shares this state. -/
structure LfrLock (T : Type) where
  swapMutex : Mutex (SmrSwap T)

/-- `LfrLock::new(initial)` (src/src/lib.rs:36-44). -/
def LfrLock.new {T : Type} (initial : T) : LfrLock T :=
  ⟨⟨SmrSwap.new initial, false, false⟩⟩

/-- `LfrLock::read` (src/src/lib.rs:204-206) = `LocalReader::load`: lock-free load of
the live value; the returned `ReadGuard` dereferences to this snapshot. -/
def LfrLock.read {T : Type} (l : LfrLock T) : T :=
  l.swapMutex.inner.current

/-- `Clone for LfrLock` (src/src/lib.rs:252-260): the clone shares the `Arc` around the
mutex-guarded slot and a reader of the same domain, hence the same shared state. -/
def LfrLock.clone {T : Type} (l : LfrLock T) : LfrLock T :=
  l

/-- `LfrLock::store` (src/src/lib.rs:54-57): lock the mutex, store, release. -/
def LfrLock.store {T : Type} (l : LfrLock T) (new_value : T) : LfrLock T :=
  ⟨⟨l.swapMutex.inner.store new_value, l.swapMutex.held, l.swapMutex.poisoned⟩⟩

/-- `LfrLock::swap` (src/src/lib.rs:67-72): lock, swap, release; returns the old
value. -/
def LfrLock.swap {T : Type} (l : LfrLock T) (new_value : T) : T × LfrLock T :=
  ((l.swapMutex.inner.swap new_value).1,
    ⟨⟨(l.swapMutex.inner.swap new_value).2, l.swapMutex.held, l.swapMutex.poisoned⟩⟩)

/-- `LfrLock::update` (src/src/lib.rs:82-87): lock, read-modify-store, release. -/
def LfrLock.update {T : Type} (l : LfrLock T) (f : T → T) : LfrLock T :=
  ⟨⟨l.swapMutex.inner.update f, l.swapMutex.held, l.swapMutex.poisoned⟩⟩

/-- `LfrLock::update_and_fetch` (src/src/lib.rs:97-103): update, then load the new
value. -/
def LfrLock.update_and_fetch {T : Type} (l : LfrLock T) (f : T → T) : T × LfrLock T :=
  (LfrLock.read (l.update f), l.update f)

/-- `LfrLock::fetch_and_update` (src/src/lib.rs:115-122): the read guard is loaded
first (line 119), then the update runs under the lock; the guard to the old value is
returned. -/
def LfrLock.fetch_and_update {T : Type} (l : LfrLock T) (f : T → T) : T × LfrLock T :=
  (l.read, l.update f)

/-- `LfrLock::get` (src/src/lib.rs:157-162): clone of the loaded value. -/
def LfrLock.get {T : Type} (l : LfrLock T) : T :=
  l.read

/-- `LfrLock::map` (src/src/lib.rs:133-139): apply `f` to a transient load. -/
def LfrLock.map {T U : Type} (l : LfrLock T) (f : T → U) : U :=
  f l.read

/-- `LfrLock::filter` (src/src/lib.rs:145-151): load a guard, return it only if the
predicate holds. The method performs only a load, so the shared state is returned
unchanged. -/
def LfrLock.filter {T : Type} (l : LfrLock T) (f : T → Bool) : Option T × LfrLock T :=
  (if f l.read then some l.read else none, l)

/-- `WriteGuard<T>` (src/src/lib.rs:267-270): holds the mutex guard (modelled by the
`held` flag of the shared state) and a private working copy `data`. -/
structure WriteGuard (T : Type) where
  data : T

/-- `LfrLock::write` → `WriteGuard::new` (src/src/lib.rs:174-179, 272-286): acquire
the mutex, load the live value, clone it into the working copy. -/
def LfrLock.write {T : Type} (l : LfrLock T) : WriteGuard T × LfrLock T :=
  (⟨l.read⟩, ⟨⟨l.swapMutex.inner, true, l.swapMutex.poisoned⟩⟩)

/-- `LfrLock::try_write` (src/src/lib.rs:185-198): `try_lock` fails only on
`WouldBlock` (a poisoned mutex is recovered, lib.rs:394); on success it builds the
same guard as `write`. -/
def LfrLock.try_write {T : Type} (l : LfrLock T) : Option (WriteGuard T × LfrLock T) :=
  if l.swapMutex.held then none else some l.write

/-- Mutation through `DerefMut` on the guard (src/src/lib.rs:297-302): a sequence of
mutations `fs`, applied in order, changes only the private working copy, never the
shared slot. -/
def WriteGuard.modifyAll {T : Type} (g : WriteGuard T) (fs : List (T → T)) : WriteGuard T :=
  ⟨fs.foldl (fun a f => f a) g.data⟩

/-- `Drop for WriteGuard` (src/src/lib.rs:304-315): take the working copy out of the
`ManuallyDrop` cell and store it into the slot; the mutex guard is then released. -/
def WriteGuard.drop {T : Type} (g : WriteGuard T) (l : LfrLock T) : LfrLock T :=
  ⟨⟨l.swapMutex.inner.store g.data, false, l.swapMutex.poisoned⟩⟩

/-- The three ways a Rust scope can end. -/
inductive ScopeExit
  | normal
  | earlyReturn
  | unwind

/-- Rust runs `Drop::drop` when a guard's scope ends by normal exit, early return, or
unwinding alike, so `WriteGuard`'s commit (src/src/lib.rs:304-315) runs in every case.
When the scope ends by unwinding, the inner `std::sync::MutexGuard` is dropped during
a panic, which sets the std poison flag. -/
def endScope {T : Type} (e : ScopeExit) (g : WriteGuard T) (l : LfrLock T) : LfrLock T :=
  match e with
  | .unwind => ⟨⟨l.swapMutex.inner.store g.data, false, true⟩⟩
  | _ => g.drop l

/-- `LfrLock::update` (src/src/lib.rs:82-87) when the closure may panic; `none` models
a panic. On panic nothing is stored (the store in `SmrSwap::update` comes after the
closure, spec.md §4.2); unwinding drops the `MutexGuard`, releasing the mutex and
setting the std poison flag — which `lock_impl::Mutex` recovers from on every later
`lock`/`try_lock` (src/src/lib.rs:386,394). -/
def LfrLock.update_panicking {T : Type} (l : LfrLock T) (f : T → Option T) : LfrLock T :=
  match f l.read with
  | some v => l.store v
  | none => ⟨⟨l.swapMutex.inner, false, true⟩⟩

/-- One mutating operation of the facade's write API (all are mutex-serialized, each
publishes exactly one new version). -/
inductive WriteOp (T : Type)
  | storeOp (v : T)
  | swapOp (v : T)
  | updateOp (f : T → T)

/-- Run one write operation. -/
def LfrLock.applyOp {T : Type} (l : LfrLock T) : WriteOp T → LfrLock T
  | .storeOp v => l.store v
  | .swapOp v => (l.swap v).2
  | .updateOp f => l.update f

/-- Run a mutex-serialized sequence of write operations. -/
def LfrLock.applyOps {T : Type} (l : LfrLock T) : List (WriteOp T) → LfrLock T
  | [] => l
  | op :: ops => (l.applyOp op).applyOps ops

/-- W threads each incrementing a `LfrLock Nat` counter via `update` (spec.md §8): the
mutex serializes the read-modify-store, so a run is a schedule (list of thread ids) of
atomic increments starting from 0. -/
def runIncrements (W : Nat) (sched : List (Fin W)) : LfrLock Nat :=
  sched.foldl (fun l _ => l.update (fun n => n + 1)) (LfrLock.new 0)

/-- Every single write operation publishes exactly one new version on top of the
existing history and leaves the initial value untouched. -/
theorem applyOp_writes {T : Type} (op : WriteOp T) (l : LfrLock T) :
    ∃ x : T, (l.applyOp op).swapMutex.inner.writes = x :: l.swapMutex.inner.writes ∧
      (l.applyOp op).swapMutex.inner.init = l.swapMutex.inner.init := by
  cases op <;> exact ⟨_, rfl, rfl⟩

/-- A serialized sequence of write operations appends some list of new versions on top
of the existing history and leaves the initial value untouched. -/
theorem applyOps_writes {T : Type} (ops : List (WriteOp T)) (l : LfrLock T) :
    ∃ newW : List T,
      (l.applyOps ops).swapMutex.inner.writes = newW ++ l.swapMutex.inner.writes ∧
      (l.applyOps ops).swapMutex.inner.init = l.swapMutex.inner.init := by
  induction ops generalizing l with
  | nil => exact ⟨[], rfl, rfl⟩
  | cons op ops ih =>
    obtain ⟨x, hx, hxi⟩ := applyOp_writes op l
    obtain ⟨w, hw, hi⟩ := ih (l.applyOp op)
    refine ⟨w ++ [x], ?_, ?_⟩
    · rw [LfrLock.applyOps, hw, hx, List.append_assoc, List.singleton_append]
    · rw [LfrLock.applyOps, hi, hxi]

/-- C1: while a `WriteGuard` obtained from `write()` is live, mutations made through
the guard's mutable access change only the private working copy and are not observable
via `read()` on the lock or any clone (`read()` still yields the pre-write value);
after the guard is dropped, `read()` yields exactly the guard's final working copy —
never a partially constructed intermediate value. -/
theorem c1_write_guard_isolation {T : Type} (l : LfrLock T)
    (_h : l.swapMutex.held = false) (fs : List (T → T)) :
    LfrLock.read (l.write).2 = l.read ∧
    LfrLock.read (LfrLock.clone (l.write).2) = l.read ∧
    LfrLock.read (WriteGuard.drop (WriteGuard.modifyAll (l.write).1 fs) (l.write).2) =
      fs.foldl (fun a f => f a) l.read :=
  ⟨rfl, rfl, rfl⟩

/-- Witness for C1 at a concrete lock and mutation sequence. -/
theorem c1_write_guard_isolation_witness :
    (LfrLock.new 5).swapMutex.held = false ∧
    LfrLock.read (WriteGuard.drop
        (WriteGuard.modifyAll ((LfrLock.new 5).write).1 [fun n => n + 1, fun n => n * 2])
        ((LfrLock.new 5).write).2) =
      [fun n => n + 1, fun n => n * 2].foldl (fun a f => f a) (LfrLock.read (LfrLock.new 5)) :=
  ⟨rfl, (c1_write_guard_isolation (LfrLock.new 5) rfl [fun n => n + 1, fun n => n * 2]).2.2⟩

/-- C2: `fetch_and_update(f)` replaces the stored value with `f(v)` and returns a read
guard that dereferences to `v`, the value before `f` was applied — the guard is loaded
before the mutating store runs (src/src/lib.rs:119-121). -/
theorem c2_fetch_and_update {T : Type} (l : LfrLock T) (f : T → T) :
    (l.fetch_and_update f).1 = l.read ∧
    LfrLock.read (l.fetch_and_update f).2 = f l.read :=
  ⟨rfl, rfl⟩

/-- C3: `swap(new)` returns the immediately-preceding stored value and installs `new`:
in general `swap` returns the current value and a subsequent read yields the new one,
and sequentially from `initial`, `swap(v1)` then `swap(v2)` return `initial` then
`v1`, and a final `read()` yields `v2`. -/
theorem c3_swap_sequence {T : Type} (l : LfrLock T) (initial v1 v2 new_value : T) :
    ((l.swap new_value).1 = l.read ∧ LfrLock.read (l.swap new_value).2 = new_value) ∧
    ((LfrLock.new initial).swap v1).1 = initial ∧
    ((((LfrLock.new initial).swap v1).2).swap v2).1 = v1 ∧
    LfrLock.read ((((LfrLock.new initial).swap v1).2).swap v2).2 = v2 :=
  ⟨⟨rfl, rfl⟩, rfl, rfl, rfl⟩

/-- C4: after `store(v)` completes, a sequential read (through the lock or any clone,
which shares the slot) observes exactly `v`; and after any further serialized write
operations, the history extends the one ending at `v` and a read observes `v` or one
of the later published values, never an earlier one. -/
theorem c4_store_visibility {T : Type} (l : LfrLock T) (v : T) :
    LfrLock.read (l.store v) = v ∧
    LfrLock.read (LfrLock.clone (l.store v)) = v ∧
    ∀ ops : List (WriteOp T), ∃ newW : List T,
      ((l.store v).applyOps ops).swapMutex.inner.writes =
        newW ++ v :: l.swapMutex.inner.writes ∧
      LfrLock.read ((l.store v).applyOps ops) ∈ v :: newW := by
  refine ⟨rfl, rfl, fun ops => ?_⟩
  obtain ⟨w, hw, hi⟩ := applyOps_writes ops (l.store v)
  refine ⟨w, hw, ?_⟩
  unfold LfrLock.read SmrSwap.current
  rw [hw, hi]
  cases w with
  | nil => simp [LfrLock.store, SmrSwap.store]
  | cons a t => simp

/-- C5: whichever way a `WriteGuard`'s scope ends — normal exit, early return, or
unwind — the commit in `Drop` still runs: the working copy is stored into the slot
(a subsequent `read()` observes it, not the pre-write value) and the mutex is
released. -/
theorem c5_commit_on_scope_exit {T : Type} (e : ScopeExit) (g : WriteGuard T)
    (l : LfrLock T) :
    LfrLock.read (endScope e g l) = g.data ∧ (endScope e g l).swapMutex.held = false := by
  cases e <;> exact ⟨rfl, rfl⟩

/-- C6: if the closure passed to `update` panics, the slot is not corrupted: nothing
is stored, the previous value remains live, the mutex is released, and — because
`lock_impl::Mutex` recovers a poisoned mutex — every subsequent `store`, `update` and
`try_write` on the same lock still succeeds. -/
theorem c6_update_panic_safety {T : Type} (l : LfrLock T) (f : T → Option T)
    (_h : l.swapMutex.held = false) (hf : f l.read = none) :
    LfrLock.read (l.update_panicking f) = l.read ∧
    (l.update_panicking f).swapMutex.held = false ∧
    (∀ v : T, LfrLock.read ((l.update_panicking f).store v) = v) ∧
    (∀ g : T → T, LfrLock.read ((l.update_panicking f).update g) = g l.read) ∧
    ((l.update_panicking f).try_write).isSome = true := by
  have h1 : l.update_panicking f = ⟨⟨l.swapMutex.inner, false, true⟩⟩ := by
    unfold LfrLock.update_panicking
    rw [hf]
  rw [h1]
  exact ⟨rfl, rfl, fun v => rfl, fun g => rfl, rfl⟩

/-- Witness for C6 at a concrete lock with a closure that always panics. -/
theorem c6_update_panic_safety_witness :
    (LfrLock.new 3).swapMutex.held = false ∧
    ((fun _ : Nat => (none : Option Nat)) (LfrLock.read (LfrLock.new 3)) = none) ∧
    LfrLock.read (LfrLock.update_panicking (LfrLock.new 3) (fun _ => none)) =
      LfrLock.read (LfrLock.new 3) ∧
    ((LfrLock.update_panicking (LfrLock.new 3) (fun _ => none)).try_write).isSome = true :=
  ⟨rfl, rfl, (c6_update_panic_safety (LfrLock.new 3) (fun _ => none) rfl rfl).1,
    (c6_update_panic_safety (LfrLock.new 3) (fun _ => none) rfl rfl).2.2.2.2⟩

/-- C7: `try_write()` returns `None` exactly when the write mutex is held; otherwise
it returns the same guard and state as `write()`. Concretely: while a `write()` guard
is live a `try_write()` returns `None`, and once the guard is dropped `try_write()`
succeeds again. -/
theorem c7_try_write_contention {T : Type} (l : LfrLock T) :
    (l.try_write = none ↔ l.swapMutex.held = true) ∧
    (l.swapMutex.held = false → l.try_write = some l.write) ∧
    LfrLock.try_write (l.write).2 = none ∧
    (LfrLock.try_write (WriteGuard.drop (l.write).1 (l.write).2)).isSome = true := by
  refine ⟨?_, fun h => ?_, rfl, rfl⟩
  · cases h : l.swapMutex.held <;> simp [LfrLock.try_write, h]
  · simp [LfrLock.try_write, h]

/-- Witness for C7 at a concrete lock whose mutex is free. -/
theorem c7_try_write_contention_witness :
    ((LfrLock.new 0).swapMutex.held = false) ∧
    (LfrLock.new 0).try_write = some (LfrLock.new 0).write :=
  ⟨rfl, (c7_try_write_contention (LfrLock.new 0)).2.1 rfl⟩

/-- C8: `filter(f)` returns `Some` guard dereferencing to the current value when `f`
holds of it and `None` when it does not, and in both cases it never mutates the stored
value: a subsequent `get()` returns the same value. -/
theorem c8_filter_read_only {T : Type} (l : LfrLock T) (f : T → Bool) :
    ((l.filter f).1 = if f l.get then some l.get else none) ∧
    LfrLock.get (l.filter f).2 = l.get :=
  ⟨rfl, rfl⟩

/-- One `update` with the increment closure raises the read value by one. -/
theorem read_update_succ (l : LfrLock Nat) :
    LfrLock.read (l.update (fun n => n + 1)) = l.read + 1 :=
  rfl

/-- Folding a schedule of increments over a lock adds the schedule's length to the
read value. -/
theorem read_foldl_increments {W : Nat} (sched : List (Fin W)) (l : LfrLock Nat) :
    LfrLock.read (sched.foldl (fun a _ => a.update (fun n => n + 1)) l) =
      l.read + sched.length := by
  induction sched generalizing l with
  | nil => rfl
  | cons a s ih =>
    rw [List.foldl_cons, ih, read_update_succ, List.length_cons]
    omega

/-- Summing the per-thread operation counts of a schedule gives its length. -/
theorem sum_count_eq_length {W : Nat} (sched : List (Fin W)) :
    (∑ t : Fin W, sched.count t) = sched.length := by
  induction sched with
  | nil => simp
  | cons a s ih =>
    simp [List.count_cons, Finset.sum_add_distrib, ih, add_comm]

/-- C9: writes via `update` are serialized and lose no updates: for any schedule in
which each of the W threads performs exactly K atomic increments through `update`,
the final stored value is exactly W * K. -/
theorem c9_no_lost_updates (W K : Nat) (sched : List (Fin W))
    (h : ∀ t : Fin W, sched.count t = K) :
    LfrLock.read (runIncrements W sched) = W * K := by
  have hlen : sched.length = W * K := by
    have hs := sum_count_eq_length sched
    rw [Finset.sum_congr rfl (fun t _ => h t), Finset.sum_const, Finset.card_univ,
      Fintype.card_fin, smul_eq_mul] at hs
    exact hs.symm
  rw [runIncrements, read_foldl_increments, hlen]
  show 0 + W * K = W * K
  exact Nat.zero_add _

/-- Witness for C9: two threads, two increments each, in an interleaved schedule. -/
theorem c9_no_lost_updates_witness :
    (∀ t : Fin 2, ([0, 1, 0, 1] : List (Fin 2)).count t = 2) ∧
    LfrLock.read (runIncrements 2 [0, 1, 0, 1]) = 2 * 2 :=
  ⟨by decide, c9_no_lost_updates 2 2 [0, 1, 0, 1] (by decide)⟩

/-- C10: acquiring a `WriteGuard` via `write()` or a successful `try_write()` and
dropping it without mutation leaves the observable value unchanged: the guard starts
as a clone of the current value, and its drop still publishes that working copy as a
new version (the history grows by one even though nothing changed), so a subsequent
`get()` returns the pre-write value. -/
theorem c10_unmodified_guard_commit {T : Type} (l : LfrLock T)
    (h : l.swapMutex.held = false) :
    l.try_write = some l.write ∧
    ((l.write).1).data = l.get ∧
    LfrLock.get (WriteGuard.drop (l.write).1 (l.write).2) = l.get ∧
    (WriteGuard.drop (l.write).1 (l.write).2).swapMutex.inner.writes.length =
      l.swapMutex.inner.writes.length + 1 := by
  refine ⟨?_, rfl, rfl, rfl⟩
  simp [LfrLock.try_write, h]

/-- Witness for C10 at a concrete lock whose mutex is free. -/
theorem c10_unmodified_guard_commit_witness :
    (LfrLock.new 7).swapMutex.held = false ∧
    LfrLock.get (WriteGuard.drop ((LfrLock.new 7).write).1 ((LfrLock.new 7).write).2) =
      LfrLock.get (LfrLock.new 7) :=
  ⟨rfl, (c10_unmodified_guard_commit (LfrLock.new 7) rfl).2.2.1⟩

end LfrSpec
